import Mathlib

/-!
Verification development for the ClipFeed ingestion worker
(src/ingestion/worker.py), shallow embedding of the job queue, the
watchdog, the retry/backoff logic, the pipeline executor and the
segment splitter, together with theorems settling the spec claims.

Timestamps are modelled as integers (seconds); the SQLite ISO-8601
strings of the source compare lexicographically exactly as their
underlying instants compare, so integer comparison is faithful.
Durations and media positions are rationals.
-/

namespace ClipFeed

/-! ## Module constants (worker.py lines 60-71, default environment values) -/

def MIN_CLIP_SECONDS : ℚ := 15

def MAX_CLIP_SECONDS : ℚ := 90

def TARGET_CLIP_SECONDS : ℚ := 45

def MAX_VIDEO_DURATION : ℚ := 3600

def RETRY_BASE_DELAY : ℤ := 30

def JOB_STALE_MINUTES : ℤ := 15

def MAX_CONCURRENT : ℕ := 2

/-! ## Data model -/

inductive JobStatus
  | queued
  | running
  | complete
  | failed
  | rejected
  | cancelled
deriving DecidableEq, Repr

inductive SourceStatus
  | pending
  | downloading
  | processing
  | complete
  | failed
  | rejected
deriving DecidableEq, Repr

/-- The `result` payload written by `_complete_job`:
`{"clip_ids": [...], "clip_count": n}`. -/
structure JobResult where
  clipIds : List ℕ
  clipCount : ℕ
deriving DecidableEq, Repr

/-- A row of the `jobs` table, restricted to the columns the worker
reads or writes. -/
structure Job where
  id : ℕ
  sourceId : ℕ
  status : JobStatus
  priority : ℤ
  createdAt : ℤ
  runAfter : Option ℤ
  startedAt : Option ℤ
  completedAt : Option ℤ
  attempts : ℕ
  maxAttempts : ℕ
  error : Option String
  result : Option JobResult
deriving DecidableEq, Repr

/-- Queue state: the `jobs` table plus the `status` column of the
`sources` table (keyed by source id). -/
structure QState where
  jobs : List Job
  sources : ℕ → SourceStatus

/-! ## Job claim (`Worker._pop_job`, direct SQLite mode, lines 285-303)

The claiming SQL is one `BEGIN IMMEDIATE` transaction:
`UPDATE jobs SET status='running', started_at=now, attempts=attempts+1
WHERE id = (SELECT id FROM jobs WHERE status='queued' AND (run_after IS
NULL OR run_after <= now) ORDER BY priority DESC, created_at ASC LIMIT 1)
RETURNING id, payload`. -/

/-- Eligibility from the inner SELECT's WHERE clause. -/
def eligibleB (now : ℤ) (j : Job) : Bool :=
  decide (j.status = JobStatus.queued) &&
    (match j.runAfter with
     | none => true
     | some t => decide (t ≤ now))

/-- `claimPrec a b` holds when the ORDER BY clause
(priority DESC, created_at ASC) places `a` strictly before `b`. -/
def claimPrec (a b : Job) : Prop :=
  b.priority < a.priority ∨ (a.priority = b.priority ∧ a.createdAt < b.createdAt)

instance (a b : Job) : Decidable (claimPrec a b) :=
  inferInstanceAs (Decidable (_ ∨ _))

/-- One comparison step of finding the first row of the ordered scan. -/
def chooseBetter (best : Option Job) (j : Job) : Option Job :=
  match best with
  | none => some j
  | some b => if claimPrec j b then some j else some b

/-- The row selected by the inner `SELECT ... ORDER BY ... LIMIT 1`. -/
def selectNext (now : ℤ) (jobs : List Job) : Option Job :=
  (jobs.filter (fun j => eligibleB now j)).foldl chooseBetter none

/-- The SET clause applied to the selected row. -/
def claimUpdate (now : ℤ) (j : Job) : Job :=
  { j with status := JobStatus.running, startedAt := some now,
           attempts := j.attempts + 1 }

/-- `_pop_job` in direct mode: select and update in one atomic step,
returning the claimed row (post-update) and the new table. -/
def pop_job (now : ℤ) (jobs : List Job) : Option Job × List Job :=
  match selectNext now jobs with
  | none => (none, jobs)
  | some j =>
      (some (claimUpdate now j),
       jobs.map fun k => if k.id = j.id then claimUpdate now j else k)

/-! ## Segment splitter (`Worker._merge_scenes`, `_fixed_split`,
`detect_scenes`, lines 777-866) -/

/-- A `{"start": s, "end": e}` segment dict (field `stop` stands for the
Python key `end`, a Lean keyword). -/
structure Seg where
  start : ℚ
  stop : ℚ
deriving DecidableEq, Repr

/-- Python's `round(x, 2)`: nearest multiple of 1/100, ties to even. -/
def round2 (q : ℚ) : ℚ :=
  let y := q * 100
  let f : ℤ := ⌊y⌋
  let r := y - (f : ℚ)
  let n : ℤ :=
    if r < 1/2 then f
    else if 1/2 < r then f + 1
    else if f % 2 = 0 then f else f + 1
  (n : ℚ) / 100

/-- The inner `while start + TARGET_CLIP_SECONDS < end` loop of
`_merge_scenes` (lines 839-844): emit TARGET-length slices, returning
them together with the final value of `start`. -/
def sliceLoop (s e : ℚ) : List Seg × ℚ :=
  if _h : s + TARGET_CLIP_SECONDS < e then
    let rest := sliceLoop (s + TARGET_CLIP_SECONDS) e
    (⟨round2 s, round2 (s + TARGET_CLIP_SECONDS)⟩ :: rest.1, rest.2)
  else ([], s)
termination_by (⌈e - s⌉).toNat
decreasing_by
  have h45 : (45 : ℚ) < e - s := by
    simp only [TARGET_CLIP_SECONDS] at _h; linarith
  have h1 : (45 : ℤ) < ⌈e - s⌉ := by
    rw [Int.lt_ceil]; exact_mod_cast h45
  have h2 : ⌈e - (s + TARGET_CLIP_SECONDS)⌉ = ⌈e - s⌉ - 45 := by
    have hx : e - (s + TARGET_CLIP_SECONDS) = (e - s) + ((-45 : ℤ) : ℚ) := by
      simp only [TARGET_CLIP_SECONDS]; push_cast; ring
    rw [hx, Int.ceil_add_int]; ring
  simp only [h2]
  omega

/-- The body of `for i in range(1, len(scene_times))` in `_merge_scenes`
(lines 831-849); the accumulator carries (segments so far, running
`start`), and `t` is `scene_times[i]`. -/
def mergeStep (acc : List Seg × ℚ) (t : ℚ) : List Seg × ℚ :=
  let duration := t - acc.2
  if TARGET_CLIP_SECONDS ≤ duration then
    if MAX_CLIP_SECONDS < duration then
      let sl := sliceLoop acc.2 t
      let withSlices := acc.1 ++ sl.1
      (if MIN_CLIP_SECONDS ≤ t - sl.2
       then withSlices ++ [⟨round2 sl.2, round2 t⟩]
       else withSlices, t)
    else (acc.1 ++ [⟨round2 acc.2, round2 t⟩], t)
  else acc

/-- `Worker._merge_scenes(scene_times, total_duration)`: fold the loop
body over `scene_times[1:]` from `start = 0.0`, then apply the
remainder rule of lines 852-853. -/
def merge_scenes (scene_times : List ℚ) (total_duration : ℚ) : List Seg :=
  let res := (scene_times.drop 1).foldl mergeStep ([], 0)
  if MIN_CLIP_SECONDS ≤ total_duration - res.2 then
    res.1 ++ [⟨round2 res.2, round2 total_duration⟩]
  else res.1

/-- The `while pos < total_duration` loop of `_fixed_split`
(lines 861-865). -/
def fixedSplitLoop (pos total : ℚ) : List Seg :=
  if _hlt : pos < total then
    let e := min (pos + TARGET_CLIP_SECONDS) total
    (if MIN_CLIP_SECONDS ≤ e - pos then [Seg.mk (round2 pos) (round2 e)] else [])
      ++ fixedSplitLoop e total
  else []
termination_by (⌈total - pos⌉).toNat
decreasing_by
  have h1 : (0 : ℤ) < ⌈total - pos⌉ := by
    rw [Int.lt_ceil]; push_cast; linarith
  rcases le_total (pos + TARGET_CLIP_SECONDS) total with hc | hc
  · have hmin : min (pos + TARGET_CLIP_SECONDS) total = pos + TARGET_CLIP_SECONDS :=
      min_eq_left hc
    have h2 : ⌈total - min (pos + TARGET_CLIP_SECONDS) total⌉ = ⌈total - pos⌉ - 45 := by
      rw [hmin]
      have hx : total - (pos + TARGET_CLIP_SECONDS) = (total - pos) + ((-45 : ℤ) : ℚ) := by
        simp only [TARGET_CLIP_SECONDS]; push_cast; ring
      rw [hx, Int.ceil_add_int]; ring
    have h3 : (45 : ℤ) ≤ ⌈total - pos⌉ := by
      rw [Int.le_ceil_iff]
      have : (0 : ℚ) < TARGET_CLIP_SECONDS := by norm_num [TARGET_CLIP_SECONDS]
      push_cast
      simp only [TARGET_CLIP_SECONDS] at hc
      linarith
    simp only [h2]
    omega
  · have hmin : min (pos + TARGET_CLIP_SECONDS) total = total := min_eq_right hc
    have h2 : ⌈total - min (pos + TARGET_CLIP_SECONDS) total⌉ = 0 := by
      rw [hmin]; simp
    simp only [h2]
    omega

/-- `Worker._fixed_split(total_duration)`. -/
def fixed_split (total_duration : ℚ) : List Seg :=
  fixedSplitLoop 0 total_duration

/-- Insert into a strictly sorted list, skipping duplicates; folding it
models Python's `sorted(set(...))`. -/
def insertSorted (x : ℚ) : List ℚ → List ℚ
  | [] => [x]
  | y :: ys =>
      if x < y then x :: y :: ys
      else if x = y then y :: ys
      else y :: insertSorted x ys

/-- Python's `sorted(set(l))`. -/
def sortedDedup (l : List ℚ) : List ℚ :=
  l.foldr insertSorted []

/-- Outcome of the external ffmpeg silence analysis inside
`detect_scenes`: the subprocess raising is `failed`, otherwise the
parsed list of silence midpoints. -/
inductive SilenceAnalysis
  | failed
  | midpoints (mids : List ℚ)
deriving DecidableEq, Repr

/-- `Worker.detect_scenes(video_path, total_duration)` with the external
silence analysis abstracted as an input (lines 777-824): short videos
are a single whole segment; otherwise boundary merging when the
analysis produced midpoints and its result is non-empty, with
`_fixed_split` as the fallback on failure or empty results. -/
def detect_scenes (analysis : SilenceAnalysis) (total_duration : ℚ) : List Seg :=
  if total_duration ≤ MAX_CLIP_SECONDS then [⟨0, total_duration⟩]
  else
    match analysis with
    | SilenceAnalysis.failed => fixed_split total_duration
    | SilenceAnalysis.midpoints mids =>
        if mids = [] then fixed_split total_duration
        else
          let split_points := sortedDedup (0 :: mids ++ [total_duration])
          let segments := merge_scenes split_points total_duration
          if segments = [] then fixed_split total_duration else segments

/-! ## Watchdog (`Worker._reclaim_stale_running_jobs`, lines 357-431) -/

/-- The fixed diagnostic of line 368 with the default
`JOB_STALE_MINUTES = 15`. -/
def staleMsg : String := "stale watchdog: recovered running job older than 15m"

/-- The SQL `CASE WHEN error IS NULL OR error = '' THEN ?msg
ELSE error || ' | ' || ?msg END` used by both watchdog UPDATEs. -/
def appendError (old : Option String) (msg : String) : Option String :=
  match old with
  | none => some msg
  | some s => if s = "" then some msg else some (s ++ " | " ++ msg)

/-- The WHERE clause shared by both watchdog UPDATEs: `status='running'
AND started_at IS NOT NULL AND datetime(started_at) <=
datetime('now', '-staleMin minutes')`. -/
def staleB (now staleMin : ℤ) (j : Job) : Bool :=
  decide (j.status = JobStatus.running) &&
    (match j.startedAt with
     | none => false
     | some t => decide (t ≤ now - staleMin * 60))

/-- The per-row effect of the two watchdog UPDATEs on a stale running
job: requeue when `attempts < max_attempts`, else mark failed. -/
def reclaimJob (now : ℤ) (msg : String) (j : Job) : Job :=
  if j.attempts < j.maxAttempts then
    { j with status := JobStatus.queued, runAfter := some now,
             error := appendError j.error msg }
  else
    { j with status := JobStatus.failed, completedAt := some now,
             error := appendError j.error msg }

/-- Pointwise update of the sources map. -/
def setSource (f : ℕ → SourceStatus) (sid : ℕ) (st : SourceStatus) :
    ℕ → SourceStatus :=
  fun k => if k = sid then st else f k

/-- `_reclaim_stale_running_jobs` in direct mode: one transaction doing
the requeue UPDATE, the fail UPDATE, then the per-row source resets,
returning `(requeued_count, failed_count)`. The second UPDATE cannot
recapture rows of the first (those are no longer `running`), so the
transaction acts on each original row independently. -/
def reclaim_stale_running_jobs (now staleMin : ℤ) (st : QState) :
    QState × ℕ × ℕ :=
  let requeued := st.jobs.filter
    (fun j => staleB now staleMin j && decide (j.attempts < j.maxAttempts))
  let failed := st.jobs.filter
    (fun j => staleB now staleMin j && decide (¬ j.attempts < j.maxAttempts))
  let jobs' := st.jobs.map
    (fun j => if staleB now staleMin j then reclaimJob now staleMsg j else j)
  let srcs1 := requeued.foldl
    (fun f j => setSource f j.sourceId SourceStatus.pending) st.sources
  let srcs2 := failed.foldl
    (fun f j => setSource f j.sourceId SourceStatus.failed) srcs1
  (⟨jobs', srcs2⟩, requeued.length, failed.length)

/-! ## Retry / terminal job updates (lines 605-678) -/

/-- `RETRY_BASE_DELAY * (2 ** (attempts - 1))` (line 645). The error
handler runs only after a claim, so `attempts ≥ 1` there. -/
def backoffDelay (attempts : ℕ) : ℤ :=
  RETRY_BASE_DELAY * 2 ^ (attempts - 1)

/-- `Worker._handle_job_error` in direct mode (lines 631-678): re-read
`attempts`/`max_attempts`, then either requeue with backoff (replacing
`error`, resetting the source to `pending`) or permanently fail. -/
def handle_job_error (now : ℤ) (errMsg : String) (j : Job)
    (_src : SourceStatus) : Job × SourceStatus :=
  if j.attempts < j.maxAttempts then
    ({ j with status := JobStatus.queued, error := some errMsg,
              runAfter := some (now + backoffDelay j.attempts) },
     SourceStatus.pending)
  else
    ({ j with status := JobStatus.failed, error := some errMsg },
     SourceStatus.failed)

/-- `Worker._fail_or_reject_job` in direct mode (lines 616-629). -/
def fail_or_reject_job (now : ℤ) (rejected : Bool) (errMsg : String)
    (j : Job) (_src : SourceStatus) : Job × SourceStatus :=
  if rejected then
    ({ j with status := JobStatus.rejected, error := some errMsg,
              completedAt := some now },
     SourceStatus.rejected)
  else
    ({ j with status := JobStatus.failed, error := some errMsg,
              completedAt := some now },
     SourceStatus.failed)

/-- `Worker._complete_job` in direct mode (lines 605-614). -/
def complete_job (now : ℤ) (clipIds : List ℕ) (j : Job) : Job :=
  { j with status := JobStatus.complete, completedAt := some now,
           result := some ⟨clipIds, clipIds.length⟩ }

/-! ## Scheduler loop (`Worker.run`, lines 311-355) -/

/-- Loop-carried state of `Worker.run`: the store, the ids of jobs whose
futures are still live, and the time of the last watchdog run. -/
structure LoopState where
  q : QState
  inflight : List ℕ
  lastReclaimAt : ℤ

/-- One iteration of the `while not shutdown` loop: reap completed
futures, run the watchdog when 60s have elapsed, then claim and submit
one job if the pool has spare capacity. `doneIds` are the job ids whose
futures completed since the previous iteration. The loop performs no
per-job heartbeat. -/
def loopIteration (now : ℤ) (doneIds : List ℕ) (s : LoopState) :
    LoopState × Option Job :=
  let inflight1 := s.inflight.filter (fun i => decide (i ∉ doneIds))
  let q1 := if 60 ≤ now - s.lastReclaimAt
    then (reclaim_stale_running_jobs now JOB_STALE_MINUTES s.q).1
    else s.q
  let last1 := if 60 ≤ now - s.lastReclaimAt then now else s.lastReclaimAt
  if MAX_CONCURRENT ≤ inflight1.length then
    (⟨q1, inflight1, last1⟩, none)
  else
    match pop_job now q1.jobs with
    | (none, _) => (⟨q1, inflight1, last1⟩, none)
    | (some j, jobs') => (⟨⟨jobs', q1.sources⟩, j.id :: inflight1, last1⟩, some j)

/-! ## Pipeline executor (`Worker.process_job`, lines 444-568)

External tools are abstracted as inputs; database writes succeed (the
duplicate-external-id fallback of lines 482-496 only re-issues a source
update and is not claim-relevant). -/

/-- Source metadata as far as the executor inspects it:
`source_metadata.get("duration", 0)`. -/
structure PipeMeta where
  duration : ℚ
deriving DecidableEq, Repr

/-- The stages whose execution the trace records. -/
inductive PipeEvent
  | fetchMetadata
  | download
  | probe
  | split
  | processSegment (i : ℕ)
deriving DecidableEq, Repr

/-- How one run of `process_job` disposes of the job. -/
inductive Disposition
  | completed (clipIds : List ℕ)
  | rejected (msg : String)
  | cancelled
  | transient (msg : String)
deriving DecidableEq, Repr

/-- Abstracted environment of one `process_job` run. `cancelledAt k`
is what the k-th `_check_cancelled` status read would observe;
`fetchResult .error` models `fetch_source_metadata` raising (e.g. a
subprocess timeout), `.ok none` the empty dict it returns on tool
failure; `segOutcome i` is `process_segment`'s return for segment `i`
(`none` when the segment's processing raised and was caught). -/
structure PipelineEnv where
  cancelledAt : ℕ → Bool
  fetchResult : Except String (Option PipeMeta)
  downloadResult : Except String Unit
  probeResult : Except String ℚ
  analysis : SilenceAnalysis
  segOutcome : ℕ → Option ℕ

/-- The rejection message of line 471 (numeric interpolation elided). -/
def rejectMsg : String := "Video too long"

/-- `Worker.process_job` as a disposition plus the trace of executed
stages. Cancellation checks happen before the download (read 0), the
probe (read 1), the scene split (read 2) and the segment loop (read 3);
there is no check before the metadata fetch. The `VideoRejected`,
`JobCancelled` and generic handlers of lines 549-558 map to the
`rejected`, `cancelled` and `transient` dispositions. -/
def process_job (env : PipelineEnv) : Disposition × List PipeEvent :=
  match env.fetchResult with
  | Except.error msg => (Disposition.transient msg, [PipeEvent.fetchMetadata])
  | Except.ok md =>
    let tooLong := match md with
      | some m => decide (0 < MAX_VIDEO_DURATION) && decide (MAX_VIDEO_DURATION < m.duration)
      | none => false
    if tooLong then (Disposition.rejected rejectMsg, [PipeEvent.fetchMetadata])
    else if env.cancelledAt 0 then
      (Disposition.cancelled, [PipeEvent.fetchMetadata])
    else match env.downloadResult with
    | Except.error msg =>
        (Disposition.transient msg, [PipeEvent.fetchMetadata, PipeEvent.download])
    | Except.ok _ =>
      if env.cancelledAt 1 then
        (Disposition.cancelled, [PipeEvent.fetchMetadata, PipeEvent.download])
      else match env.probeResult with
      | Except.error msg =>
          (Disposition.transient msg,
           [PipeEvent.fetchMetadata, PipeEvent.download, PipeEvent.probe])
      | Except.ok dur =>
        if env.cancelledAt 2 then
          (Disposition.cancelled,
           [PipeEvent.fetchMetadata, PipeEvent.download, PipeEvent.probe])
        else
          let segs := detect_scenes env.analysis dur
          if env.cancelledAt 3 then
            (Disposition.cancelled,
             [PipeEvent.fetchMetadata, PipeEvent.download, PipeEvent.probe,
              PipeEvent.split])
          else
            (Disposition.completed
               ((List.range segs.length).filterMap env.segOutcome),
             [PipeEvent.fetchMetadata, PipeEvent.download, PipeEvent.probe,
              PipeEvent.split]
               ++ (List.range segs.length).map PipeEvent.processSegment)

/-- The terminal job-store write each disposition performs (the
`JobCancelled` handler of lines 553-555 writes nothing). -/
def applyDisposition (now : ℤ) (d : Disposition) (j : Job)
    (src : SourceStatus) : Job × SourceStatus :=
  match d with
  | Disposition.completed ids => (complete_job now ids j, SourceStatus.complete)
  | Disposition.rejected msg => fail_or_reject_job now true msg j src
  | Disposition.cancelled => (j, src)
  | Disposition.transient msg => handle_job_error now msg j src

/-! ## Concrete data used by witnesses -/

/-- A freshly claimed job on its first attempt. -/
def demoJob : Job :=
  ⟨1, 7, JobStatus.running, 5, 0, none, some 0, none, 1, 3, none, none⟩

/-- A claimed job with its attempts exhausted. -/
def demoJobExhausted : Job :=
  { demoJob with id := 2, sourceId := 8, attempts := 3 }

/-- Two eligible queued jobs: priority 5 created at t=10, priority 10
created at t=20. -/
def demoQueue : List Job :=
  [⟨1, 7, JobStatus.queued, 5, 10, none, none, none, 0, 3, none, none⟩,
   ⟨2, 8, JobStatus.queued, 10, 20, none, none, none, 0, 3, none, none⟩]

/-- The job the claim at t=100 on `demoQueue` must return: the
priority-10 job, updated. -/
def demoClaimed : Job :=
  claimUpdate 100 ⟨2, 8, JobStatus.queued, 10, 20, none, none, none, 0, 3, none, none⟩

/-- The queue left behind by that claim. -/
def demoQueue2 : List Job := (pop_job 100 demoQueue).2

/-- A store with a stale retryable running job, a stale exhausted
running job, and a fresh queued job. -/
def demoQState : QState :=
  ⟨[demoJob, demoJobExhausted,
    ⟨3, 9, JobStatus.queued, 5, 0, none, none, none, 0, 3, none, none⟩],
   fun _ => SourceStatus.processing⟩

/-- Scheduler state whose single running job is stale while its future
is still in flight (ids 1 and 2 both live), with the watchdog due. -/
def demoLoopState : LoopState :=
  ⟨⟨[demoJob], fun _ => SourceStatus.processing⟩, [1, 2], 10000⟩

/-- A pipeline run whose job was cancelled before it started. -/
def envAllCancelled : PipelineEnv :=
  ⟨fun _ => true, Except.ok none, Except.ok (), Except.ok 0,
   SilenceAnalysis.failed, fun _ => none⟩

/-- A pipeline run whose fetched metadata reports a 5000s video. -/
def envRejected : PipelineEnv :=
  ⟨fun _ => false, Except.ok (some ⟨5000⟩), Except.ok (), Except.ok 0,
   SilenceAnalysis.failed, fun _ => none⟩

/-- A pipeline run reaching a 135s probe (three segments) where the
middle segment's processing raises. -/
def envSegments : PipelineEnv :=
  ⟨fun _ => false, Except.ok none, Except.ok (), Except.ok 135,
   SilenceAnalysis.failed,
   fun i => if i = 0 then some 101 else if i = 2 then some 103 else none⟩

/-- A pipeline run cancelled between the download and the probe. -/
def envCancelAt1 : PipelineEnv :=
  ⟨fun k => decide (1 ≤ k), Except.ok none, Except.ok (), Except.ok 0,
   SilenceAnalysis.failed, fun _ => none⟩

/-! # Theorems -/

/-- Stepwise evaluation of the `_fixed_split` loop on a 135s duration. -/
theorem fixed_split_135_eval :
    fixed_split 135 = [⟨0, 45⟩, ⟨45, 90⟩, ⟨90, 135⟩] := by
  rw [fixed_split, fixedSplitLoop]
  norm_num [TARGET_CLIP_SECONDS, MIN_CLIP_SECONDS, round2, min_def]
  rw [fixedSplitLoop]
  norm_num [TARGET_CLIP_SECONDS, MIN_CLIP_SECONDS, round2, min_def]
  rw [fixedSplitLoop]
  norm_num [TARGET_CLIP_SECONDS, MIN_CLIP_SECONDS, round2, min_def]
  rw [fixedSplitLoop]
  norm_num

/-- A 135s video falls back to three fixed segments. -/
theorem detect_failed_135 :
    detect_scenes SilenceAnalysis.failed 135 = [⟨0, 45⟩, ⟨45, 90⟩, ⟨90, 135⟩] := by
  unfold detect_scenes
  norm_num [MAX_CLIP_SECONDS]
  exact fixed_split_135_eval

/-- C2: on a transient failure with `attempts < max_attempts` the job is
requeued with `run_after = now + RETRY_BASE_DELAY * 2^(attempts-1)`
(30, 60, 120, ... seconds for attempts 1, 2, 3, ...) and the source
reset to `pending`; with `attempts >= max_attempts` the job is failed
terminally, `run_after` is not set, and the source becomes `failed`.
The delay is a pure function of the attempt count. -/
theorem C2_retry_backoff (now : ℤ) (msg : String) (j : Job)
    (src : SourceStatus) (_hA : 1 ≤ j.attempts) :
    (j.attempts < j.maxAttempts →
      handle_job_error now msg j src =
        ({ j with status := JobStatus.queued, error := some msg,
                  runAfter := some (now + RETRY_BASE_DELAY * 2 ^ (j.attempts - 1)) },
         SourceStatus.pending))
    ∧ (j.maxAttempts ≤ j.attempts →
      handle_job_error now msg j src =
        ({ j with status := JobStatus.failed, error := some msg },
         SourceStatus.failed)
      ∧ (handle_job_error now msg j src).1.runAfter = j.runAfter)
    ∧ backoffDelay 1 = 30 ∧ backoffDelay 2 = 60 ∧ backoffDelay 3 = 120 := by
  refine ⟨fun h => ?_, fun h => ?_, by decide, by decide, by decide⟩
  · simp [handle_job_error, backoffDelay, h]
  · have h' : ¬ j.attempts < j.maxAttempts := not_lt.mpr h
    refine ⟨by simp [handle_job_error, h'], ?_⟩
    simp [handle_job_error, h']

theorem C2_retry_backoff_witness :
    handle_job_error 1000 "HTTP 429" demoJob SourceStatus.processing =
      ({ demoJob with status := JobStatus.queued, error := some "HTTP 429",
                      runAfter := some 1030 },
       SourceStatus.pending) := by
  have h := (C2_retry_backoff 1000 "HTTP 429" demoJob SourceStatus.processing
    (by decide)).1 (by decide)
  rw [h]
  decide

/-- C5 as stated is false: the transient-failure retry path of
`_handle_job_error` overwrites `error` with only the latest message
instead of appending to the stored history. Concretely, a job whose
`error` already holds "first failure" ends up with just "second
failure" after the retry path handles a second failure. -/
theorem C5_counterexample :
    (handle_job_error 0 "second failure"
        { demoJob with error := some "first failure" }
        SourceStatus.processing).1.error = some "second failure"
    ∧ (handle_job_error 0 "second failure"
        { demoJob with error := some "first failure" }
        SourceStatus.processing).1.error
      ≠ appendError (some "first failure") "second failure" := by
  constructor
  · decide
  · decide

/-- C5 amended: only the watchdog treats `error` as append-only (joining
with " | " and preserving the stored text); the transient-failure retry
path and the terminal failure/rejection path overwrite `error` with the
latest message only. -/
theorem C5_error_history (now : ℤ) (msg s : String) (j : Job)
    (src : SourceStatus) (h : j.error = some s) (hs : s ≠ "") :
    (reclaimJob now msg j).error = some (s ++ " | " ++ msg)
    ∧ (handle_job_error now msg j src).1.error = some msg
    ∧ (fail_or_reject_job now true msg j src).1.error = some msg
    ∧ (fail_or_reject_job now false msg j src).1.error = some msg := by
  refine ⟨?_, ?_, ?_, ?_⟩
  · unfold reclaimJob
    split <;> simp [appendError, h, hs]
  · unfold handle_job_error
    split <;> rfl
  · rfl
  · rfl

theorem C5_error_history_witness :
    (reclaimJob 500 "stale" { demoJob with error := some "boom" }).error
      = some "boom | stale" := by
  have h := (C5_error_history 500 "stale" "boom"
    { demoJob with error := some "boom" } SourceStatus.processing rfl
    (by decide)).1
  simpa using h

/-- C9: when the fetched source metadata reports a duration above the
`MAX_VIDEO_DURATION` ceiling, `process_job` raises `VideoRejected`
before downloading anything and `_fail_or_reject_job` terminally marks
the job `rejected` and the source `rejected`, with `completed_at` set,
`run_after` untouched, and no requeue — regardless of how many attempts
remain. -/
theorem C9_rejection_no_retry (env : PipelineEnv) (m : PipeMeta)
    (now : ℤ) (j : Job) (src : SourceStatus)
    (hm : env.fetchResult = Except.ok (some m))
    (hd : MAX_VIDEO_DURATION < m.duration) :
    process_job env = (Disposition.rejected rejectMsg, [PipeEvent.fetchMetadata])
    ∧ (applyDisposition now (process_job env).1 j src).1.status = JobStatus.rejected
    ∧ (applyDisposition now (process_job env).1 j src).2 = SourceStatus.rejected
    ∧ (applyDisposition now (process_job env).1 j src).1.runAfter = j.runAfter
    ∧ (applyDisposition now (process_job env).1 j src).1.completedAt = some now
    ∧ (applyDisposition now (process_job env).1 j src).1.status ≠ JobStatus.queued := by
  have hmain : process_job env
      = (Disposition.rejected rejectMsg, [PipeEvent.fetchMetadata]) := by
    unfold process_job
    rw [hm]
    have h0 : (decide (0 < MAX_VIDEO_DURATION)
        && decide (MAX_VIDEO_DURATION < m.duration)) = true := by
      rw [Bool.and_eq_true, decide_eq_true_eq, decide_eq_true_eq]
      exact ⟨by norm_num [MAX_VIDEO_DURATION], hd⟩
    simp [h0]
  rw [hmain]
  exact ⟨rfl, rfl, rfl, rfl, rfl, by simp [applyDisposition, fail_or_reject_job]⟩

theorem C9_rejection_no_retry_witness :
    (applyDisposition 500 (process_job envRejected).1 demoJob
        SourceStatus.downloading).1.status = JobStatus.rejected
    ∧ (applyDisposition 500 (process_job envRejected).1 demoJob
        SourceStatus.downloading).2 = SourceStatus.rejected
    ∧ (applyDisposition 500 (process_job envRejected).1 demoJob
        SourceStatus.downloading).1.runAfter = none := by
  have h := C9_rejection_no_retry envRejected ⟨5000⟩ 500 demoJob
    SourceStatus.downloading rfl (by norm_num [MAX_VIDEO_DURATION])
  exact ⟨h.2.1, h.2.2.1, h.2.2.2.1⟩

/-- C6 as stated is false: no cancellation check precedes the metadata
fetch. With the cancellation flag set before the job even starts, the
executor still runs the metadata-fetch stage (the trace contains it)
before the first checkpoint stops the run; had every stage, including
the metadata fetch, re-checked cancellation first, the trace would have
been empty. -/
theorem C6_counterexample :
    process_job envAllCancelled = (Disposition.cancelled, [PipeEvent.fetchMetadata])
    ∧ PipeEvent.fetchMetadata ∈ (process_job envAllCancelled).2 := by
  constructor
  · rfl
  · decide

/-- C6 amended: the executor re-checks cancellation before the download,
the probe, the segment split and the per-segment loop (but not before
the metadata fetch), and on detecting cancellation it stops without any
write to the job's status (the `cancelled` disposition leaves job and
source untouched). -/
theorem C6_cancellation_checkpoints (env : PipelineEnv) (now : ℤ) (j : Job)
    (src : SourceStatus) (md : Option PipeMeta)
    (hf : env.fetchResult = Except.ok md)
    (hok : md = none ∨ ∃ m, md = some m ∧ m.duration ≤ MAX_VIDEO_DURATION) :
    applyDisposition now Disposition.cancelled j src = (j, src)
    ∧ (env.cancelledAt 0 = true →
        process_job env = (Disposition.cancelled, [PipeEvent.fetchMetadata]))
    ∧ (env.cancelledAt 0 = false → env.downloadResult = Except.ok () →
        env.cancelledAt 1 = true →
        process_job env = (Disposition.cancelled,
          [PipeEvent.fetchMetadata, PipeEvent.download]))
    ∧ (∀ dur, env.cancelledAt 0 = false → env.downloadResult = Except.ok () →
        env.cancelledAt 1 = false → env.probeResult = Except.ok dur →
        env.cancelledAt 2 = true →
        process_job env = (Disposition.cancelled,
          [PipeEvent.fetchMetadata, PipeEvent.download, PipeEvent.probe]))
    ∧ (∀ dur, env.cancelledAt 0 = false → env.downloadResult = Except.ok () →
        env.cancelledAt 1 = false → env.probeResult = Except.ok dur →
        env.cancelledAt 2 = false → env.cancelledAt 3 = true →
        process_job env = (Disposition.cancelled,
          [PipeEvent.fetchMetadata, PipeEvent.download, PipeEvent.probe,
           PipeEvent.split])) := by
  have hT : ∀ x : Option PipeMeta,
      (x = none ∨ ∃ m, x = some m ∧ m.duration ≤ MAX_VIDEO_DURATION) →
      (match x with
       | some m => decide (0 < MAX_VIDEO_DURATION)
           && decide (MAX_VIDEO_DURATION < m.duration)
       | none => false) = false := by
    intro x hx
    rcases hx with h | ⟨m, hm, hd⟩
    · subst h; rfl
    · subst hm
      simp [not_lt.mpr hd]
  refine ⟨rfl, fun hc0 => ?_, fun hc0 hdl hc1 => ?_,
      fun dur hc0 hdl hc1 hp hc2 => ?_, fun dur hc0 hdl hc1 hp hc2 hc3 => ?_⟩
  · unfold process_job
    rw [hf]
    simp [hT md hok, hc0]
  · unfold process_job
    rw [hf]
    simp [hT md hok, hc0, hdl, hc1]
  · unfold process_job
    rw [hf]
    simp [hT md hok, hc0, hdl, hc1, hp, hc2]
  · unfold process_job
    rw [hf]
    simp [hT md hok, hc0, hdl, hc1, hp, hc2, hc3]

theorem C6_cancellation_checkpoints_witness :
    process_job envCancelAt1
      = (Disposition.cancelled, [PipeEvent.fetchMetadata, PipeEvent.download]) :=
  (C6_cancellation_checkpoints envCancelAt1 0 demoJob SourceStatus.pending
    none rfl (Or.inl rfl)).2.2.1 rfl rfl rfl

/-- Every `filterMap` success is counted: relates the produced clip list
to the count of succeeding segments. -/
theorem length_filterMap_eq_countP {α β : Type} (f : α → Option β) (l : List α) :
    (l.filterMap f).length = l.countP (fun a => (f a).isSome) := by
  induction l with
  | nil => rfl
  | cons a t ih =>
      cases hfa : f a <;>
        simp [List.filterMap_cons, hfa, List.countP_cons, ih]

/-- C10: once the pipeline reaches the per-segment loop, each segment's
outcome is recorded independently; a segment whose processing raised
contributes no clip id, the job still completes with status `complete`
and the source `complete`, and the result payload lists exactly the
clip ids of the segments that succeeded, with `clip_count` their
number. -/
theorem C10_segment_isolation (env : PipelineEnv) (now : ℤ) (j : Job)
    (src : SourceStatus) (dur : ℚ)
    (hf : env.fetchResult = Except.ok none)
    (hc : ∀ k, env.cancelledAt k = false)
    (hdl : env.downloadResult = Except.ok ())
    (hp : env.probeResult = Except.ok dur) :
    process_job env =
      (Disposition.completed
        ((List.range (detect_scenes env.analysis dur).length).filterMap env.segOutcome),
       [PipeEvent.fetchMetadata, PipeEvent.download, PipeEvent.probe, PipeEvent.split]
         ++ (List.range (detect_scenes env.analysis dur).length).map PipeEvent.processSegment)
    ∧ (applyDisposition now (process_job env).1 j src).1.status = JobStatus.complete
    ∧ (applyDisposition now (process_job env).1 j src).1.result
        = some ⟨(List.range (detect_scenes env.analysis dur).length).filterMap env.segOutcome,
                ((List.range (detect_scenes env.analysis dur).length).filterMap
                  env.segOutcome).length⟩
    ∧ (applyDisposition now (process_job env).1 j src).2 = SourceStatus.complete
    ∧ ((List.range (detect_scenes env.analysis dur).length).filterMap env.segOutcome).length
        = (List.range (detect_scenes env.analysis dur).length).countP
            (fun i => (env.segOutcome i).isSome) := by
  have hmain : process_job env =
      (Disposition.completed
        ((List.range (detect_scenes env.analysis dur).length).filterMap env.segOutcome),
       [PipeEvent.fetchMetadata, PipeEvent.download, PipeEvent.probe, PipeEvent.split]
         ++ (List.range (detect_scenes env.analysis dur).length).map PipeEvent.processSegment) := by
    unfold process_job
    rw [hf]
    simp [hc 0, hc 1, hc 2, hc 3, hdl, hp]
  rw [hmain]
  exact ⟨rfl, rfl, rfl, rfl, length_filterMap_eq_countP _ _⟩

theorem C10_segment_isolation_witness :
    (applyDisposition 50 (process_job envSegments).1 demoJob
        SourceStatus.processing).1.status = JobStatus.complete
    ∧ (applyDisposition 50 (process_job envSegments).1 demoJob
        SourceStatus.processing).1.result = some ⟨[101, 103], 2⟩ := by
  have h := C10_segment_isolation envSegments 50 demoJob SourceStatus.processing
    135 rfl (fun _ => rfl) rfl rfl
  refine ⟨h.2.1, ?_⟩
  rw [h.2.2.1]
  have ha : envSegments.analysis = SilenceAnalysis.failed := rfl
  rw [ha, detect_failed_135]
  rfl

/-- Stepwise evaluation of the slicing loop on a 150s span. -/
theorem sliceLoop_0_150_eval :
    sliceLoop 0 150 = ([⟨0, 45⟩, ⟨45, 90⟩, ⟨90, 135⟩], 135) := by
  rw [sliceLoop]
  norm_num [TARGET_CLIP_SECONDS, round2]
  rw [sliceLoop]
  norm_num [TARGET_CLIP_SECONDS, round2]
  rw [sliceLoop]
  norm_num [TARGET_CLIP_SECONDS, round2]
  rw [sliceLoop]
  norm_num [TARGET_CLIP_SECONDS]

/-- A single 150s span is sliced at TARGET length with a 15s tail kept. -/
theorem merge_scenes_150_eval :
    merge_scenes [0, 150] 150 = [⟨0, 45⟩, ⟨45, 90⟩, ⟨90, 135⟩, ⟨135, 150⟩] := by
  norm_num [merge_scenes, mergeStep, sliceLoop_0_150_eval, TARGET_CLIP_SECONDS,
    MAX_CLIP_SECONDS, MIN_CLIP_SECONDS, round2]

/-- C7: `_merge_scenes` closes a span only once it reaches TARGET
(shorter spans leave the accumulator untouched and are absorbed into
the next), a closed span always advances the running start to the
boundary, and on the spec's concrete inputs (MIN=15, TARGET=45,
MAX=90): boundaries [0,10,20,50] of a 50s video merge to [[0,50]];
[0,150] of a 150s video yields at least two segments none longer than
MAX; [0,50,55] of a 55s video yields [[0,50]], dropping the 5s tail. -/
theorem C7_merge_boundaries :
    (∀ acc : List Seg × ℚ, ∀ t : ℚ,
        t - acc.2 < TARGET_CLIP_SECONDS → mergeStep acc t = acc)
    ∧ (∀ acc : List Seg × ℚ, ∀ t : ℚ,
        TARGET_CLIP_SECONDS ≤ t - acc.2 → (mergeStep acc t).2 = t)
    ∧ merge_scenes [0, 10, 20, 50] 50 = [⟨0, 50⟩]
    ∧ (2 ≤ (merge_scenes [0, 150] 150).length
       ∧ ∀ s ∈ merge_scenes [0, 150] 150, s.stop - s.start ≤ MAX_CLIP_SECONDS)
    ∧ merge_scenes [0, 50, 55] 55 = [⟨0, 50⟩] := by
  refine ⟨fun acc t h => ?_, fun acc t h => ?_,
      by norm_num [merge_scenes, mergeStep, TARGET_CLIP_SECONDS,
        MAX_CLIP_SECONDS, MIN_CLIP_SECONDS, round2], ?_,
      by norm_num [merge_scenes, mergeStep, TARGET_CLIP_SECONDS,
        MAX_CLIP_SECONDS, MIN_CLIP_SECONDS, round2]⟩
  · unfold mergeStep
    rw [if_neg (not_le.mpr h)]
  · unfold mergeStep
    rw [if_pos h]
    split <;> rfl
  · rw [merge_scenes_150_eval]
    refine ⟨by norm_num, ?_⟩
    intro s hs
    fin_cases hs <;> norm_num [MAX_CLIP_SECONDS]

theorem C7_merge_boundaries_witness :
    mergeStep ([], 0) 10 = ([], 0) ∧ (mergeStep ([], 0) 50).2 = 50 :=
  ⟨C7_merge_boundaries.1 ([], 0) 10 (by norm_num [TARGET_CLIP_SECONDS]),
   C7_merge_boundaries.2.1 ([], 0) 50 (by norm_num [TARGET_CLIP_SECONDS])⟩

theorem fixed_split_90_eval : fixed_split 90 = [⟨0, 45⟩, ⟨45, 90⟩] := by
  rw [fixed_split, fixedSplitLoop]
  norm_num [TARGET_CLIP_SECONDS, MIN_CLIP_SECONDS, round2, min_def]
  rw [fixedSplitLoop]
  norm_num [TARGET_CLIP_SECONDS, MIN_CLIP_SECONDS, round2, min_def]
  rw [fixedSplitLoop]
  norm_num

theorem fixed_split_55_eval : fixed_split 55 = [⟨0, 45⟩] := by
  rw [fixed_split, fixedSplitLoop]
  norm_num [TARGET_CLIP_SECONDS, MIN_CLIP_SECONDS, round2, min_def]
  rw [fixedSplitLoop]
  norm_num [TARGET_CLIP_SECONDS, MIN_CLIP_SECONDS, round2, min_def]
  rw [fixedSplitLoop]
  norm_num

theorem fixed_split_65_eval : fixed_split 65 = [⟨0, 45⟩, ⟨45, 65⟩] := by
  rw [fixed_split, fixedSplitLoop]
  norm_num [TARGET_CLIP_SECONDS, MIN_CLIP_SECONDS, round2, min_def]
  rw [fixedSplitLoop]
  norm_num [TARGET_CLIP_SECONDS, MIN_CLIP_SECONDS, round2, min_def]
  rw [fixedSplitLoop]
  norm_num

/-- The fallback split of a video longer than MAX always emits its
first TARGET-length slice. -/
theorem fixed_split_ne_nil (total : ℚ) (h : MAX_CLIP_SECONDS < total) :
    fixed_split total ≠ [] := by
  have h90 : (90 : ℚ) < total := by
    simpa [MAX_CLIP_SECONDS] using h
  have h0 : (0 : ℚ) < total := by linarith
  rw [fixed_split, fixedSplitLoop, dif_pos h0]
  have hmin : min (0 + TARGET_CLIP_SECONDS) total = 0 + TARGET_CLIP_SECONDS :=
    min_eq_left (by norm_num [TARGET_CLIP_SECONDS]; linarith)
  have h45 : MIN_CLIP_SECONDS ≤ 0 + TARGET_CLIP_SECONDS - 0 := by
    norm_num [MIN_CLIP_SECONDS, TARGET_CLIP_SECONDS]
  simp only [hmin, if_pos h45]
  simp

/-- C8: `detect_scenes` returns the single whole segment [0, duration]
whenever `duration <= MAX` (including degenerate short durations);
otherwise it uses the non-empty boundary merge or falls back to
`_fixed_split`, whose TARGET-stepping drop-short-remainder walk gives
fixedSplit(90)=[[0,45],[45,90]], fixedSplit(55)=[[0,45]],
fixedSplit(65)=[[0,45],[45,65]]; and the overall result is non-empty
whenever `duration >= MIN` (the function is total, hence never
throws). -/
theorem C8_detect_segments :
    (∀ a : SilenceAnalysis, ∀ total : ℚ, total ≤ MAX_CLIP_SECONDS →
        detect_scenes a total = [⟨0, total⟩])
    ∧ fixed_split 90 = [⟨0, 45⟩, ⟨45, 90⟩]
    ∧ fixed_split 55 = [⟨0, 45⟩]
    ∧ fixed_split 65 = [⟨0, 45⟩, ⟨45, 65⟩]
    ∧ (∀ a : SilenceAnalysis, ∀ total : ℚ, MIN_CLIP_SECONDS ≤ total →
        detect_scenes a total ≠ []) := by
  refine ⟨fun a total h => ?_, fixed_split_90_eval, fixed_split_55_eval,
      fixed_split_65_eval, fun a total _h => ?_⟩
  · unfold detect_scenes
    rw [if_pos h]
  · by_cases hM : total ≤ MAX_CLIP_SECONDS
    · simp [detect_scenes, hM]
    · have hlt : MAX_CLIP_SECONDS < total := not_le.mp hM
      cases a with
      | failed =>
          simp only [detect_scenes, if_neg hM]
          exact fixed_split_ne_nil total hlt
      | midpoints mids =>
          by_cases hm : mids = []
          · simp only [detect_scenes, if_neg hM, hm, if_pos]
            exact fixed_split_ne_nil total hlt
          · simp only [detect_scenes, if_neg hM, if_neg hm]
            split
            · exact fixed_split_ne_nil total hlt
            · assumption

theorem C8_detect_segments_witness :
    detect_scenes SilenceAnalysis.failed 30 = [⟨0, 30⟩]
    ∧ detect_scenes (SilenceAnalysis.midpoints [50]) 135 ≠ [] :=
  ⟨C8_detect_segments.1 SilenceAnalysis.failed 30
      (by norm_num [MAX_CLIP_SECONDS]),
   C8_detect_segments.2.2.2.2 (SilenceAnalysis.midpoints [50]) 135
      (by norm_num [MIN_CLIP_SECONDS])⟩

/-- Evaluating a fold of same-valued source updates: the slot is `v`
exactly when some job in the list carries that source id. -/
theorem foldl_setSource_apply (v : SourceStatus) (l : List Job)
    (f0 : ℕ → SourceStatus) (sid : ℕ) :
    (l.foldl (fun f j => setSource f j.sourceId v) f0) sid
      = if l.any (fun j => decide (j.sourceId = sid)) then v else f0 sid := by
  induction l generalizing f0 with
  | nil => simp
  | cons a t ih =>
      simp only [List.foldl_cons, List.any_cons]
      rw [ih]
      by_cases h : a.sourceId = sid
      · simp [setSource, h]
      · simp [setSource, h, Ne.symm h]

/-- C3: the watchdog requeues exactly the stale running jobs that still
have attempts left (status `queued`, `run_after = now`, diagnostic
appended to `error`, source reset to `pending`), terminally fails
exactly the stale running jobs at max attempts (status `failed`,
`completed_at = now`, diagnostic appended, source `failed`), returns
the pair of counts, and leaves every job not matching the stale scan
untouched, as well as every source not owned by a stale job. -/
theorem C3_watchdog (now staleMin : ℤ) (st : QState) :
    ((reclaim_stale_running_jobs now staleMin st).2.1
      = st.jobs.countP (fun j => staleB now staleMin j
          && decide (j.attempts < j.maxAttempts)))
    ∧ ((reclaim_stale_running_jobs now staleMin st).2.2
      = st.jobs.countP (fun j => staleB now staleMin j
          && decide (¬ j.attempts < j.maxAttempts)))
    ∧ (∀ i : ℕ, ∀ j : Job, st.jobs[i]? = some j →
        ((staleB now staleMin j = true → j.attempts < j.maxAttempts →
          (reclaim_stale_running_jobs now staleMin st).1.jobs[i]?
            = some { j with status := JobStatus.queued, runAfter := some now, error := appendError j.error staleMsg })
        ∧ (staleB now staleMin j = true → ¬ j.attempts < j.maxAttempts →
          (reclaim_stale_running_jobs now staleMin st).1.jobs[i]?
            = some { j with status := JobStatus.failed, completedAt := some now, error := appendError j.error staleMsg })
        ∧ (staleB now staleMin j = false →
          (reclaim_stale_running_jobs now staleMin st).1.jobs[i]? = some j)))
    ∧ (∀ sid : ℕ,
        (∀ j ∈ st.jobs, staleB now staleMin j = true → j.sourceId ≠ sid) →
        (reclaim_stale_running_jobs now staleMin st).1.sources sid
          = st.sources sid)
    ∧ (∀ j ∈ st.jobs, staleB now staleMin j = true →
        ¬ j.attempts < j.maxAttempts →
        (reclaim_stale_running_jobs now staleMin st).1.sources j.sourceId
          = SourceStatus.failed)
    ∧ (∀ j ∈ st.jobs, staleB now staleMin j = true →
        j.attempts < j.maxAttempts →
        (∀ k ∈ st.jobs, staleB now staleMin k = true →
          k.sourceId = j.sourceId → k.attempts < k.maxAttempts) →
        (reclaim_stale_running_jobs now staleMin st).1.sources j.sourceId
          = SourceStatus.pending) := by
  refine ⟨?_, ?_, ?_, ?_, ?_, ?_⟩
  · simp [reclaim_stale_running_jobs, List.countP_eq_length_filter]
  · simp [reclaim_stale_running_jobs, List.countP_eq_length_filter]
  · intro i j hj
    refine ⟨fun hs ha => ?_, fun hs ha => ?_, fun hs => ?_⟩
    · simp [reclaim_stale_running_jobs, List.getElem?_map, hj, hs, ha, reclaimJob]
    · simp [reclaim_stale_running_jobs, List.getElem?_map, hj, hs, ha, reclaimJob]
    · simp [reclaim_stale_running_jobs, List.getElem?_map, hj, hs]
  · intro sid hno
    have h1 : (st.jobs.filter (fun j => staleB now staleMin j
        && decide (j.attempts < j.maxAttempts))).any
        (fun j => decide (j.sourceId = sid)) = false := by
      rw [Bool.eq_false_iff]
      intro hcon
      rw [List.any_eq_true] at hcon
      obtain ⟨x, hxmem, hxp⟩ := hcon
      rw [List.mem_filter, Bool.and_eq_true] at hxmem
      exact hno x hxmem.1 hxmem.2.1 (by simpa using hxp)
    have h2 : (st.jobs.filter (fun j => staleB now staleMin j
        && decide (¬ j.attempts < j.maxAttempts))).any
        (fun j => decide (j.sourceId = sid)) = false := by
      rw [Bool.eq_false_iff]
      intro hcon
      rw [List.any_eq_true] at hcon
      obtain ⟨x, hxmem, hxp⟩ := hcon
      rw [List.mem_filter, Bool.and_eq_true] at hxmem
      exact hno x hxmem.1 hxmem.2.1 (by simpa using hxp)
    unfold reclaim_stale_running_jobs
    simp only [foldl_setSource_apply, h1, h2]
    simp
  · intro j hmem hs ha
    have hany : (st.jobs.filter (fun k => staleB now staleMin k
        && decide (¬ k.attempts < k.maxAttempts))).any
        (fun k => decide (k.sourceId = j.sourceId)) = true := by
      rw [List.any_eq_true]
      exact ⟨j, List.mem_filter.mpr ⟨hmem, by simp [hs, ha]⟩, by simp⟩
    unfold reclaim_stale_running_jobs
    simp only [foldl_setSource_apply, hany]
    simp
  · intro j hmem hs ha hnofail
    have hfail : (st.jobs.filter (fun k => staleB now staleMin k
        && decide (¬ k.attempts < k.maxAttempts))).any
        (fun k => decide (k.sourceId = j.sourceId)) = false := by
      rw [Bool.eq_false_iff]
      intro hcon
      rw [List.any_eq_true] at hcon
      obtain ⟨x, hxmem, hxp⟩ := hcon
      rw [List.mem_filter, Bool.and_eq_true] at hxmem
      have hxa := hnofail x hxmem.1 hxmem.2.1 (by simpa using hxp)
      have := hxmem.2.2
      simp [hxa] at this
    have hreq : (st.jobs.filter (fun k => staleB now staleMin k
        && decide (k.attempts < k.maxAttempts))).any
        (fun k => decide (k.sourceId = j.sourceId)) = true := by
      rw [List.any_eq_true]
      exact ⟨j, List.mem_filter.mpr ⟨hmem, by simp [hs, ha]⟩, by simp⟩
    unfold reclaim_stale_running_jobs
    simp only [foldl_setSource_apply, hfail, hreq]
    simp

theorem C3_watchdog_witness :
    (reclaim_stale_running_jobs 3600 15 demoQState).2.1 = 1
    ∧ (reclaim_stale_running_jobs 3600 15 demoQState).2.2 = 1
    ∧ (reclaim_stale_running_jobs 3600 15 demoQState).1.sources 7
        = SourceStatus.pending
    ∧ (reclaim_stale_running_jobs 3600 15 demoQState).1.sources 8
        = SourceStatus.failed
    ∧ (reclaim_stale_running_jobs 3600 15 demoQState).1.sources 9
        = SourceStatus.processing := by
  have h := C3_watchdog 3600 15 demoQState
  refine ⟨?_, ?_, ?_, ?_, ?_⟩
  · rw [h.1]; decide
  · rw [h.2.1]; decide
  · exact h.2.2.2.2.2 demoJob (by decide) (by decide) (by decide)
      (by decide)
  · exact h.2.2.2.2.1 demoJobExhausted (by decide) (by decide) (by decide)
  · exact h.2.2.2.1 9 (by decide)

/-- A fold of the first-row scan never conjures a job from nowhere:
its result is the accumulator or a list member. -/
theorem foldl_chooseBetter_mem (l : List Job) (acc : Option Job) (b : Job)
    (h : l.foldl chooseBetter acc = some b) : acc = some b ∨ b ∈ l := by
  induction l generalizing acc with
  | nil => exact Or.inl h
  | cons a t ih =>
      rw [List.foldl_cons] at h
      rcases ih (chooseBetter acc a) h with h' | h'
      · cases acc with
        | none =>
            rw [show chooseBetter none a = some a from rfl] at h'
            right
            injection h' with h2
            exact h2 ▸ List.mem_cons_self a t
        | some c =>
            rw [show chooseBetter (some c) a
              = if claimPrec a c then some a else some c from rfl] at h'
            by_cases hpc : claimPrec a c
            · rw [if_pos hpc] at h'
              right
              injection h' with h2
              exact h2 ▸ List.mem_cons_self a t
            · rw [if_neg hpc] at h'
              exact Or.inl h'
      · exact Or.inr (List.mem_cons_of_mem a h')

/-- An eligible job is queued. -/
theorem eligibleB_status (now : ℤ) (j : Job) (h : eligibleB now j = true) :
    j.status = JobStatus.queued := by
  unfold eligibleB at h
  rw [Bool.and_eq_true] at h
  exact of_decide_eq_true h.1

/-- The selected row is an eligible member of the table. -/
theorem selectNext_mem (now : ℤ) (l : List Job) (j0 : Job)
    (h : selectNext now l = some j0) : j0 ∈ l ∧ eligibleB now j0 = true := by
  unfold selectNext at h
  rcases foldl_chooseBetter_mem _ _ _ h with h' | h'
  · cases h'
  · rw [List.mem_filter] at h'
    exact ⟨h'.1, h'.2⟩

/-- The watchdog rewrites job rows in place: ids are untouched. -/
theorem reclaim_preserves_ids (now staleMin : ℤ) (st : QState) :
    (reclaim_stale_running_jobs now staleMin st).1.jobs.map Job.id
      = st.jobs.map Job.id := by
  simp only [reclaim_stale_running_jobs]
  rw [List.map_map]
  apply List.map_congr_left
  intro a _
  simp only [Function.comp]
  by_cases h : staleB now staleMin a = true
  · rw [if_pos h]
    unfold reclaimJob
    split <;> rfl
  · rw [if_neg h]

/-- In a table with no duplicate ids, a member sharing the id of the
row at index `i` is that row. -/
theorem job_eq_of_id_eq (l : List Job) (hnd : (l.map Job.id).Nodup)
    (i : ℕ) (j : Job) (hj : l[i]? = some j) (p : Job) (hp : p ∈ l)
    (hid : p.id = j.id) : p = j := by
  obtain ⟨k, hk, hpk⟩ := List.getElem_of_mem hp
  rw [List.getElem?_eq_some] at hj
  obtain ⟨hi, hij⟩ := hj
  have hmapk : (l.map Job.id)[k]? = some p.id := by
    rw [List.getElem?_map, List.getElem?_eq_getElem hk, hpk]
    rfl
  have hmapi : (l.map Job.id)[i]? = some j.id := by
    rw [List.getElem?_map, List.getElem?_eq_getElem hi, hij]
    rfl
  have hk' : k < (l.map Job.id).length := by simpa using hk
  have hki : k = i := List.getElem?_inj hk' hnd (by rw [hmapk, hmapi, hid])
  subst hki
  exact hpk.symm.trans hij

/-- A claim rewrites only the selected queued row, so the row at any
index holding a running job is untouched. -/
theorem pop_job_preserves_running (now : ℤ) (l : List Job)
    (hnd : (l.map Job.id).Nodup) (i : ℕ) (j : Job) (hj : l[i]? = some j)
    (hrun : j.status = JobStatus.running) :
    (pop_job now l).2[i]? = some j := by
  unfold pop_job
  cases hsel : selectNext now l with
  | none => simpa using hj
  | some j0 =>
      obtain ⟨hmem, helig⟩ := selectNext_mem now l j0 hsel
      have hq : j0.status = JobStatus.queued := eligibleB_status now j0 helig
      have hne : ¬ j.id = j0.id := by
        intro he
        have hpj : j0 = j := job_eq_of_id_eq l hnd i j hj j0 hmem (by rw [he])
        rw [hpj, hrun] at hq
        cases hq
      simp [List.getElem?_map, hj, hne]

/-- C4 as stated is false: `Worker.run` has no heartbeat step, so the
watchdog reclaims a stale running job even while the worker that owns
it is alive (its future, id 1, is still in flight and not done): one
iteration requeues the job although its worker lives. -/
theorem C4_counterexample :
    (loopIteration 10800 [] demoLoopState).1.q.jobs
      = [{ demoJob with status := JobStatus.queued, runAfter := some 10800, error := some staleMsg }]
    ∧ 1 ∈ (loopIteration 10800 [] demoLoopState).1.inflight := by
  constructor
  · decide
  · decide

/-- C4 amended: the scheduler loop sends no heartbeats and nothing ever
refreshes `started_at` of a running job — a running job not yet past
the staleness threshold passes through an iteration completely
unchanged (its staleness clock keeps aging), and once the threshold is
passed the next due watchdog run reclaims the job regardless of
whether its future is still in flight (shown here with the pool full,
so the iteration claims nothing new). Only the staleness threshold
itself protects slow workers. -/
theorem C4_no_heartbeat (now : ℤ) (doneIds : List ℕ) (s : LoopState)
    (i : ℕ) (j : Job) (hj : s.q.jobs[i]? = some j)
    (hnodup : (s.q.jobs.map Job.id).Nodup) :
    (j.status = JobStatus.running → staleB now JOB_STALE_MINUTES j = false →
      (loopIteration now doneIds s).1.q.jobs[i]? = some j)
    ∧ (60 ≤ now - s.lastReclaimAt → staleB now JOB_STALE_MINUTES j = true →
      j.attempts < j.maxAttempts →
      MAX_CONCURRENT ≤ (s.inflight.filter (fun x => decide (x ∉ doneIds))).length →
      (loopIteration now doneIds s).1.q.jobs[i]?
        = some { j with status := JobStatus.queued, runAfter := some now, error := appendError j.error staleMsg }
      ∧ ∀ x ∈ s.inflight, x ∉ doneIds →
          x ∈ (loopIteration now doneIds s).1.inflight) := by
  constructor
  · intro hrun hs
    unfold loopIteration
    by_cases hdue : (60 : ℤ) ≤ now - s.lastReclaimAt
    · have hjq : (reclaim_stale_running_jobs now JOB_STALE_MINUTES s.q).1.jobs[i]?
          = some j := by
        simp [reclaim_stale_running_jobs, List.getElem?_map, hj, hs]
      have hndq : ((reclaim_stale_running_jobs now JOB_STALE_MINUTES
          s.q).1.jobs.map Job.id).Nodup := by
        rw [reclaim_preserves_ids]
        exact hnodup
      simp only [if_pos hdue]
      by_cases hcap : MAX_CONCURRENT
          ≤ (s.inflight.filter (fun x => decide (x ∉ doneIds))).length
      · rw [if_pos hcap]
        exact hjq
      · rw [if_neg hcap]
        have hpp := pop_job_preserves_running now _ hndq i j hjq hrun
        rcases hpop : pop_job now
            (reclaim_stale_running_jobs now JOB_STALE_MINUTES s.q).1.jobs
          with ⟨o, jobs2⟩
        rw [hpop] at hpp
        cases o with
        | none => simpa using hjq
        | some jj => simpa using hpp
    · simp only [if_neg hdue]
      by_cases hcap : MAX_CONCURRENT
          ≤ (s.inflight.filter (fun x => decide (x ∉ doneIds))).length
      · rw [if_pos hcap]
        exact hj
      · rw [if_neg hcap]
        have hpp := pop_job_preserves_running now _ hnodup i j hj hrun
        rcases hpop : pop_job now s.q.jobs with ⟨o, jobs2⟩
        rw [hpop] at hpp
        cases o with
        | none => simpa using hj
        | some jj => simpa using hpp
  · intro hdue hs ha hcap
    unfold loopIteration
    simp only [if_pos hdue]
    refine ⟨?_, ?_⟩
    · rw [if_pos hcap]
      show (reclaim_stale_running_jobs now JOB_STALE_MINUTES s.q).1.jobs[i]? = _
      simp [reclaim_stale_running_jobs, List.getElem?_map, hj, hs, ha, reclaimJob]
    · intro x hx hnd2
      rw [if_pos hcap]
      exact List.mem_filter.mpr ⟨hx, by simpa using hnd2⟩

theorem C4_no_heartbeat_witness :
    (loopIteration 10800 [] demoLoopState).1.q.jobs[0]?
      = some { demoJob with status := JobStatus.queued, runAfter := some 10800, error := appendError demoJob.error staleMsg }
    ∧ 2 ∈ (loopIteration 10800 [] demoLoopState).1.inflight := by
  have h := (C4_no_heartbeat 10800 [] demoLoopState 0 demoJob (by decide)
    (by decide)).2 (by decide) (by decide) (by decide) (by decide)
  exact ⟨h.1, h.2 2 (by decide) (by decide)⟩

/-- The ORDER BY relation is irreflexive. -/
theorem claimPrec_irrefl (a : Job) : ¬ claimPrec a a := by
  unfold claimPrec
  omega

/-- The negation of the ORDER BY relation is transitive. -/
theorem notPrec_trans (a c b : Job) (h1 : ¬ claimPrec a c)
    (h2 : ¬ claimPrec c b) : ¬ claimPrec a b := by
  unfold claimPrec at h1 h2 ⊢
  omega

/-- A row strictly after one that is itself not before `b` is not
before `b` either. -/
theorem prec_notPrec_left (j c b : Job) (h1 : claimPrec j c)
    (h2 : ¬ claimPrec j b) : ¬ claimPrec c b := by
  unfold claimPrec at h1 h2 ⊢
  omega

/-- The scan fold yields the minimum of the ORDER BY relation over the
accumulator and the scanned rows. -/
theorem foldl_chooseBetter_min (l : List Job) (acc : Option Job) (b : Job)
    (h : l.foldl chooseBetter acc = some b) :
    (∀ c, acc = some c → ¬ claimPrec c b) ∧ ∀ k ∈ l, ¬ claimPrec k b := by
  induction l generalizing acc with
  | nil =>
      refine ⟨fun c hc => ?_, fun k hk => absurd hk (List.not_mem_nil k)⟩
      rw [List.foldl_nil] at h
      rw [h] at hc
      injection hc with h2
      subst h2
      exact claimPrec_irrefl b
  | cons a t ih =>
      rw [List.foldl_cons] at h
      obtain ⟨ihacc, ihmem⟩ := ih (chooseBetter acc a) h
      constructor
      · intro c hc
        subst hc
        by_cases hpc : claimPrec a c
        · have hna := ihacc a (by
            rw [show chooseBetter (some c) a
              = if claimPrec a c then some a else some c from rfl, if_pos hpc])
          exact prec_notPrec_left a c b hpc hna
        · exact ihacc c (by
            rw [show chooseBetter (some c) a
              = if claimPrec a c then some a else some c from rfl, if_neg hpc])
      · intro k hk
        rcases List.mem_cons.mp hk with hk | hk
        · subst hk
          cases acc with
          | none =>
              exact ihacc k (by rw [show chooseBetter none k = some k from rfl])
          | some c =>
              by_cases hpc : claimPrec k c
              · exact ihacc k (by
                  rw [show chooseBetter (some c) k
                    = if claimPrec k c then some k else some c from rfl, if_pos hpc])
              · have hnc := ihacc c (by
                  rw [show chooseBetter (some c) k
                    = if claimPrec k c then some k else some c from rfl, if_neg hpc])
                exact notPrec_trans k c b hpc hnc
        · exact ihmem k hk

/-- The scan fold returns nothing only from an empty scan. -/
theorem foldl_chooseBetter_eq_none (l : List Job) (acc : Option Job) :
    l.foldl chooseBetter acc = none ↔ acc = none ∧ l = [] := by
  induction l generalizing acc with
  | nil => simp
  | cons a t ih =>
      rw [List.foldl_cons, ih]
      constructor
      · rintro ⟨h1, h2⟩
        exfalso
        cases acc with
        | none =>
            rw [show chooseBetter none a = some a from rfl] at h1
            cases h1
        | some c =>
            rw [show chooseBetter (some c) a
              = if claimPrec a c then some a else some c from rfl] at h1
            by_cases hpc : claimPrec a c
            · rw [if_pos hpc] at h1
              cases h1
            · rw [if_neg hpc] at h1
              cases h1
      · rintro ⟨h1, h2⟩
        exact absurd h2 (List.cons_ne_nil a t)

/-- The inner SELECT comes back empty exactly when no row is eligible. -/
theorem selectNext_eq_none (now : ℤ) (l : List Job) :
    selectNext now l = none ↔ ∀ j ∈ l, eligibleB now j = false := by
  unfold selectNext
  rw [foldl_chooseBetter_eq_none]
  simp [List.filter_eq_nil_iff]

/-- No eligible row strictly precedes the selected row. -/
theorem selectNext_min (now : ℤ) (l : List Job) (j0 : Job)
    (h : selectNext now l = some j0) :
    ∀ k ∈ l, eligibleB now k = true → ¬ claimPrec k j0 := by
  intro k hk he
  unfold selectNext at h
  exact (foldl_chooseBetter_min _ _ _ h).2 k (List.mem_filter.mpr ⟨hk, he⟩)

/-- C1: the claim returns `none` exactly when no job is eligible
(queued with `run_after` unset or past); otherwise it returns an
eligible job of maximal priority and, within that priority, earliest
`created_at`, atomically set to `running` with `started_at = now` and
`attempts` incremented, rewriting only that row; and because the
claimed row is no longer `queued`, a subsequent claim on the resulting
state can never return the same job id — each eligible job goes to
exactly one caller. -/
theorem C1_claim_protocol (now : ℤ) (jobs : List Job) :
    ((pop_job now jobs).1 = none ↔ ∀ j ∈ jobs, eligibleB now j = false)
    ∧ (∀ j' jobs', pop_job now jobs = (some j', jobs') →
        (∃ j, j ∈ jobs ∧ eligibleB now j = true ∧ j' = claimUpdate now j
          ∧ j'.attempts = j.attempts + 1
          ∧ jobs' = jobs.map (fun k => if k.id = j.id then claimUpdate now j else k)
          ∧ (∀ k ∈ jobs, eligibleB now k = true →
              k.priority < j.priority
              ∨ (k.priority = j.priority ∧ j.createdAt ≤ k.createdAt)))
        ∧ j'.status = JobStatus.running
        ∧ j'.startedAt = some now
        ∧ (∀ now2 j2 jobs2, pop_job now2 jobs' = (some j2, jobs2) →
            j2.id ≠ j'.id)) := by
  constructor
  · unfold pop_job
    cases hsel : selectNext now jobs with
    | none =>
        exact ⟨fun _ => (selectNext_eq_none now jobs).mp hsel, fun _ => rfl⟩
    | some j0 =>
        constructor
        · intro hcon
          exact Option.noConfusion hcon
        · intro hall
          obtain ⟨hmem, helig⟩ := selectNext_mem now jobs j0 hsel
          rw [hall j0 hmem] at helig
          exact Bool.noConfusion helig
  · intro j' jobs' hpop
    unfold pop_job at hpop
    cases hsel : selectNext now jobs with
    | none =>
        rw [hsel] at hpop
        injection hpop with h1 h2
        cases h1
    | some j0 =>
        rw [hsel] at hpop
        injection hpop with h1 h2
        injection h1 with h1
        obtain ⟨hmem, helig⟩ := selectNext_mem now jobs j0 hsel
        have hmin := selectNext_min now jobs j0 hsel
        refine ⟨⟨j0, hmem, helig, h1.symm, by rw [← h1]; rfl, h2.symm, ?_⟩,
            by rw [← h1]; rfl, by rw [← h1]; rfl, ?_⟩
        · intro k hk he
          have hnp := hmin k hk he
          unfold claimPrec at hnp
          omega
        · intro now2 j2 jobs2 hpop2 heq
          unfold pop_job at hpop2
          cases hsel2 : selectNext now2 jobs' with
          | none =>
              rw [hsel2] at hpop2
              injection hpop2 with hx _
              cases hx
          | some j02 =>
              rw [hsel2] at hpop2
              injection hpop2 with hx _
              injection hx with hx
              obtain ⟨hmem2, helig2⟩ := selectNext_mem now2 jobs' j02 hsel2
              have hq2 : j02.status = JobStatus.queued :=
                eligibleB_status now2 j02 helig2
              rw [← h2] at hmem2
              obtain ⟨k0, hk0mem, hk0eq⟩ := List.mem_map.mp hmem2
              by_cases hid : k0.id = j0.id
              · rw [if_pos hid] at hk0eq
                rw [← hk0eq] at hq2
                exact JobStatus.noConfusion hq2
              · rw [if_neg hid] at hk0eq
                refine hid ?_
                have hj02 : j02.id = j0.id := by
                  rw [← hx] at heq
                  rw [← h1] at heq
                  exact heq
                rw [hk0eq]
                exact hj02

theorem C1_claim_protocol_witness :
    demoClaimed.status = JobStatus.running
    ∧ demoClaimed.startedAt = some 100
    ∧ demoClaimed.attempts = 1 := by
  have h := (C1_claim_protocol 100 demoQueue).2 demoClaimed demoQueue2
    (by decide)
  exact ⟨h.2.1, h.2.2.1, by decide⟩

end ClipFeed
